import Mathlib
/-!
Verification of `sdk/search/azure-search-documents/azure/search/documents/_index/_search_index_client.py`.

The Python module is shallowly embedded: pure helpers become Lean functions,
Python exceptions become an `Except` error kind, and the single in-place dict
mutation of `convert_search_result` is made explicit by returning the
post-call state of the input row alongside the returned mapping.

Layout:
  1. Python value/error model (dicts, scalar values, error kinds)
  2. `convert_search_result` (result-row adapter)
  3. JSON codec model (`json.dumps` / `json.loads` fragment used by tokens)
  4. UTF-8 byte codec model (`str.encode("utf-8")` / decode)
  5. Base64 codec model (`base64.b64encode` / `b64decode`)
  6. Continuation-token codec (`pack_continuation_token` / `unpack_continuation_token`)
  7. `odata` escaping helper and Python `str.format`
  8. Client facade (`search`, `suggest`, header merging)
  9. Claim theorems
-/

/-- Characters that the checked source manipulates, named to keep string
literals free of quote/brace characters. -/
def squote : Char := Char.ofNat 39

/-- Double-quote character. -/
def dquote : Char := Char.ofNat 34

/-- Backslash character. -/
def bslash : Char := Char.ofNat 92

/-- Left brace character. -/
def lbrace : Char := Char.ofNat 123

/-- Right brace character. -/
def rbrace : Char := Char.ofNat 125

/-- Error kinds of the Python exceptions the module can raise.  They model the
concrete exception classes of the CPython libraries used by the source
(`binascii.Error` from `base64.b64decode`, `json.JSONDecodeError` from
`json.loads`, `UnicodeDecodeError` from byte decoding, and the builtin
`KeyError` / `TypeError` / `ValueError`). -/
inductive PyErr where
  | binasciiError
  | jsonDecodeError
  | unicodeDecodeError
  | keyError
  | typeError
  | valueError
deriving DecidableEq, Repr

/-- Python scalar-ish values that flow through result rows and `odata`
substitutions: `None`, `str`, `int`, `float` (modelled as `ℚ`; the claims only
move scores around verbatim, no float arithmetic occurs), and the typed
highlight mapping `Dict[str, List[str]]` of the generated `SearchResult`
model. -/
inductive Val where
  | vnone
  | vstr (s : String)
  | vint (n : Int)
  | vfloat (q : ℚ)
  | vhl (m : List (String × List String))
deriving DecidableEq, Repr

/-- A Python `dict` with string keys, as an insertion-ordered association
list with unique keys (CPython 3.7+ semantics). -/
abbrev PyDict (α : Type) : Type := List (String × α)

/-- `d[k]` as an option: first binding of `k`, in insertion order. -/
def dictGet {α : Type} : List (String × α) → String → Option α
  | [], _ => none
  | (k', v) :: rest, k => if k' = k then some v else dictGet rest k

/-- `d[k] = v` on a Python dict: overwrite in place when the key is present
(keeping its position), append at the end otherwise. -/
def dictSet {α : Type} : List (String × α) → String → α → List (String × α)
  | [], k, v => [(k, v)]
  | (k', v') :: rest, k, v =>
    if k' = k then (k', v) :: rest else (k', v') :: dictSet rest k v

/-- A raw search result row, after the generated model `SearchResult`: a
free-form field bag (`additional_properties`), a relevance `score` and a
`highlights` map (either of which may be Python `None`). -/
structure SearchResult where
  additional_properties : PyDict Val
  score : Val
  highlights : Val
deriving DecidableEq, Repr

/-- `convert_search_result` from the source:

```python
def convert_search_result(result):
    ret = result.additional_properties
    ret["@search.score"] = result.score
    ret["@search.highlights"] = result.highlights
    return ret
```

`ret` aliases `result.additional_properties`, so the two item assignments
mutate the row's own field bag.  The embedding returns the pair
`(return value, post-call state of the input row)`; aliasing shows up as the
returned mapping being equal to the post-call field bag. -/
def convert_search_result (result : SearchResult) : PyDict Val × SearchResult :=
  let ret := result.additional_properties
  let ret := dictSet ret "@search.score" result.score
  let ret := dictSet ret "@search.highlights" result.highlights
  (ret, { result with additional_properties := ret })

mutual

/-- JSON values, in the fragment the continuation-token envelope uses:
`null`, strings and objects.  This is the image of `json.dumps` on the
token dictionaries built by `pack_continuation_token` (whose leaves are the
version tag, the next link — a string or `None` — and the serialized request,
an object of string-or-`None` fields). -/
inductive JsonVal where
  | null
  | str (s : String)
  | obj (m : JsonMembers)
deriving DecidableEq, Repr

inductive JsonMembers where
  | nil
  | cons (k : String) (v : JsonVal) (m : JsonMembers)
deriving DecidableEq, Repr
end

/-- Key list of a JSON object body, in order. -/
def jsonMembersKeys : JsonMembers → List String
  | .nil => []
  | .cons k _ m => k :: jsonMembersKeys m

/-- First binding of a key in a JSON object body. -/
def jsonMembersGet : JsonMembers → String → Option JsonVal
  | .nil, _ => none
  | .cons k' v m, k => if k' = k then some v else jsonMembersGet m k

/-- JSON string-character escaping as `json.dumps` performs it on the quote
and backslash characters (the `\uXXXX` escaping of control and — under the
default `ensure_ascii` — non-ASCII characters is elided; other characters
are kept verbatim, and the parser below inverts exactly this escape). -/
def jsonEscape : List Char → List Char
  | [] => []
  | c :: rest =>
    if c = dquote ∨ c = bslash then bslash :: c :: jsonEscape rest
    else c :: jsonEscape rest

/-- Serialized JSON string literal: quote, escaped body, quote. -/
def jsonDumpString (s : String) : List Char :=
  dquote :: (jsonEscape s.toList ++ [dquote])

mutual

/-- `json.dumps` on the modelled fragment, with CPython's default separators
(`", "` between members, `": "` after a key). -/
def jsonDumpChars : JsonVal → List Char
  | .null => ['n', 'u', 'l', 'l']
  | .str s => jsonDumpString s
  | .obj m => lbrace :: jsonDumpMembers m

def jsonDumpMembers : JsonMembers → List Char
  | .nil => [rbrace]
  | .cons k v rest =>
    jsonDumpString k ++ (':' :: ' ' :: jsonDumpChars v) ++
      (match rest with
        | .nil => [rbrace]
        | .cons _ _ _ => ',' :: ' ' :: jsonDumpMembers rest)
end

/-- `json.dumps` producing a Python `str`. -/
def jsonDumps (j : JsonVal) : String := String.mk (jsonDumpChars j)

/-- Parse the body of a JSON string literal (after the opening quote),
returning the unescaped characters and the remaining input. -/
def parseJsonString : List Char → Except PyErr (List Char × List Char)
  | [] => .error .jsonDecodeError
  | c :: rest =>
    if c = dquote then .ok ([], rest)
    else if c = bslash then
      match rest with
      | [] => .error .jsonDecodeError
      | c2 :: rest2 =>
        if c2 = dquote ∨ c2 = bslash then
          (parseJsonString rest2).map fun p => (c2 :: p.1, p.2)
        else .error .jsonDecodeError
    else (parseJsonString rest).map fun p => (c :: p.1, p.2)

mutual

/-- Recursive-descent parser for the modelled JSON fragment.  The fuel
argument bounds the nesting recursion and makes the definition structural,
so that closed instances compute by `decide`; `jsonLoads` supplies ample
fuel. -/
def parseJsonVal : Nat → List Char → Except PyErr (JsonVal × List Char)
  | 0, _ => .error .jsonDecodeError
  | fuel + 1, cs =>
    match cs with
    | [] => .error .jsonDecodeError
    | c :: rest =>
      if c = 'n' then
        match rest with
        | c1 :: c2 :: c3 :: rest2 =>
          if c1 = 'u' ∧ c2 = 'l' ∧ c3 = 'l' then .ok (.null, rest2)
          else .error .jsonDecodeError
        | _ => .error .jsonDecodeError
      else if c = dquote then
        (parseJsonString rest).map fun p => (.str (String.mk p.1), p.2)
      else if c = lbrace then
        match rest with
        | [] => .error .jsonDecodeError
        | c2 :: rest2 =>
          if c2 = rbrace then .ok (.obj .nil, rest2)
          else (parseJsonMembers fuel rest).map fun p => (.obj p.1, p.2)
      else .error .jsonDecodeError

def parseJsonMembers : Nat → List Char → Except PyErr (JsonMembers × List Char)
  | 0, _ => .error .jsonDecodeError
  | fuel + 1, cs =>
    match cs with
    | [] => .error .jsonDecodeError
    | c :: rest =>
      if c = dquote then
        match parseJsonString rest with
        | .error e => .error e
        | .ok (kcs, cs1) =>
          match cs1 with
          | [] => .error .jsonDecodeError
          | c3 :: cs2 =>
            if c3 = ':' then
              match cs2 with
              | [] => .error .jsonDecodeError
              | c4 :: cs3 =>
                if c4 = ' ' then
                  match parseJsonVal fuel cs3 with
                  | .error e => .error e
                  | .ok (v, cs4) =>
                    match cs4 with
                    | [] => .error .jsonDecodeError
                    | c5 :: cs5 =>
                      if c5 = rbrace then .ok (.cons (String.mk kcs) v .nil, cs5)
                      else if c5 = ',' then
                        match cs5 with
                        | [] => .error .jsonDecodeError
                        | c6 :: cs6 =>
                          if c6 = ' ' then
                            match parseJsonMembers fuel cs6 with
                            | .error e => .error e
                            | .ok (ms, cs7) => .ok (.cons (String.mk kcs) v ms, cs7)
                          else .error .jsonDecodeError
                      else .error .jsonDecodeError
                else .error .jsonDecodeError
            else .error .jsonDecodeError
      else .error .jsonDecodeError
end

deriving instance DecidableEq for Except

/-- `json.loads`: parse the whole input, rejecting trailing data. -/
def jsonLoads (s : String) : Except PyErr JsonVal :=
  match parseJsonVal (s.length + 1) s.toList with
  | .error e => .error e
  | .ok (j, []) => .ok j
  | .ok (_, _ :: _) => .error .jsonDecodeError

mutual

def jsonWeight : JsonVal → Nat
  | .null => 1
  | .str _ => 1
  | .obj m => 1 + jsonWeightMembers m

def jsonWeightMembers : JsonMembers → Nat
  | .nil => 0
  | .cons _ v rest => 1 + jsonWeight v + jsonWeightMembers rest
end

/-- UTF-8 encoding of one code point (`str.encode("utf-8")`, per character). -/
def utf8EncodeChar (n : Nat) : List Nat :=
  if n < 128 then [n]
  else if n < 2048 then [192 + n / 64, 128 + n % 64]
  else if n < 65536 then [224 + n / 4096, 128 + n / 64 % 64, 128 + n % 64]
  else [240 + n / 262144, 128 + n / 4096 % 64, 128 + n / 64 % 64, 128 + n % 64]

/-- UTF-8 encoding of a character sequence, as a byte list. -/
def utf8EncodeList : List Char → List Nat
  | [] => []
  | c :: rest => utf8EncodeChar c.toNat ++ utf8EncodeList rest

/-- `s.encode("utf-8")` on a Python `str`. -/
def utf8Encode (s : String) : List Nat := utf8EncodeList s.toList

/-- UTF-8 decoding of a byte list (`bytes.decode("utf-8")`, as performed by
`json.loads` when handed the `bytes` output of `base64.b64decode`).  The fuel
argument makes the recursion structural (one unit per decoded character);
`utf8Decode` supplies ample fuel. -/
def utf8DecodeAux : Nat → List Nat → Except PyErr (List Char)
  | _, [] => .ok []
  | 0, _ :: _ => .error .unicodeDecodeError
  | fuel + 1, b :: rest =>
    if b < 128 then
      (utf8DecodeAux fuel rest).map fun cs => Char.ofNat b :: cs
    else if b < 192 then .error .unicodeDecodeError
    else if b < 224 then
      match rest with
      | [] => .error .unicodeDecodeError
      | b2 :: rest2 =>
        if 128 ≤ b2 ∧ b2 < 192 then
          (utf8DecodeAux fuel rest2).map fun cs =>
            Char.ofNat ((b - 192) * 64 + (b2 - 128)) :: cs
        else .error .unicodeDecodeError
    else if b < 240 then
      match rest with
      | b2 :: b3 :: rest3 =>
        if (128 ≤ b2 ∧ b2 < 192) ∧ 128 ≤ b3 ∧ b3 < 192 then
          (utf8DecodeAux fuel rest3).map fun cs =>
            Char.ofNat ((b - 224) * 4096 + (b2 - 128) * 64 + (b3 - 128)) :: cs
        else .error .unicodeDecodeError
      | _ => .error .unicodeDecodeError
    else
      match rest with
      | b2 :: b3 :: b4 :: rest4 =>
        if ((128 ≤ b2 ∧ b2 < 192) ∧ 128 ≤ b3 ∧ b3 < 192) ∧ 128 ≤ b4 ∧ b4 < 192 then
          (utf8DecodeAux fuel rest4).map fun cs =>
            Char.ofNat
              ((b - 240) * 262144 + (b2 - 128) * 4096 + (b3 - 128) * 64 + (b4 - 128)) :: cs
        else .error .unicodeDecodeError
      | _ => .error .unicodeDecodeError

/-- `bytes.decode("utf-8")`, producing the decoded characters. -/
def utf8Decode (bs : List Nat) : Except PyErr (List Char) :=
  utf8DecodeAux bs.length bs

/-- The standard base64 alphabet, as used by `base64.b64encode`. -/
def b64Alphabet : List Char :=
  "ABCDEFGHIJKLMNOPQRSTUVWXYZabcdefghijklmnopqrstuvwxyz0123456789+/".toList

/-- Character for a 6-bit group. -/
def b64Char (n : Nat) : Char := b64Alphabet.getD n 'A'

/-- Index scan of the alphabet. -/
def b64Index : List Char → Char → Nat → Option Nat
  | [], _, _ => none
  | a :: rest, c, i => if a = c then some i else b64Index rest c (i + 1)

/-- 6-bit value of an alphabet character, `none` outside the alphabet. -/
def b64Val (c : Char) : Option Nat := b64Index b64Alphabet c 0

/-- `base64.b64encode` body: 3 input bytes become 4 alphabet characters;
a trailing group of 1 or 2 bytes is padded with `=`. -/
def b64EncodeChunks : List Nat → List Char
  | [] => []
  | [a] => [b64Char (a / 4), b64Char (a % 4 * 16), '=', '=']
  | [a, b] => [b64Char (a / 4), b64Char (a % 4 * 16 + b / 16), b64Char (b % 16 * 4), '=']
  | a :: b :: c :: rest =>
    b64Char (a / 4) :: b64Char (a % 4 * 16 + b / 16) :: b64Char (b % 16 * 4 + c / 64) ::
      b64Char (c % 64) :: b64EncodeChunks rest

/-- `base64.b64encode` (its output bytes are ASCII; the embedding keeps it
as text, which is how the source hands the token to the caller). -/
def b64encode (bs : List Nat) : String := String.mk (b64EncodeChunks bs)

/-- Decode 4-character groups, accepting `=` padding only at the very end;
any other shape fails like `binascii.Error` from `base64.b64decode`. -/
def b64DecodeChunks : List Char → Except PyErr (List Nat)
  | [] => .ok []
  | c1 :: c2 :: c3 :: c4 :: rest =>
    match b64Val c1, b64Val c2 with
    | some v1, some v2 =>
      if c3 = '=' then
        if c4 = '=' ∧ rest = [] then .ok [v1 * 4 + v2 / 16]
        else .error .binasciiError
      else
        match b64Val c3 with
        | some v3 =>
          if c4 = '=' then
            if rest = [] then .ok [v1 * 4 + v2 / 16, v2 % 16 * 16 + v3 / 4]
            else .error .binasciiError
          else
            match b64Val c4 with
            | some v4 =>
              (b64DecodeChunks rest).map fun bs =>
                (v1 * 4 + v2 / 16) :: (v2 % 16 * 16 + v3 / 4) :: (v3 % 4 * 64 + v4) :: bs
            | none => .error .binasciiError
        | none => .error .binasciiError
    | _, _ => .error .binasciiError
  | _ => .error .binasciiError

/-- Characters `base64.b64decode` keeps before decoding (with the default
`validate=False` it silently discards characters outside the alphabet, apart
from the `=` padding). -/
def b64KeepChar (c : Char) : Bool := (b64Val c).isSome || c = '='

/-- `base64.b64decode` on a token string. -/
def b64decode (s : String) : Except PyErr (List Nat) :=
  b64DecodeChunks (s.toList.filter b64KeepChar)

/-- Modelled from the spec: the generated protocol request type
(`SearchRequest` of `_generated.models`) is not under `src/`; the spec
describes it as the service's native paging-continuation structure wrapping
"search text, filters, paging hints".  It is modelled as an immutable record
of optional textual fields. -/
structure SearchRequest where
  search_text : Option String
  filter : Option String
deriving DecidableEq, Repr

/-- A Python optional string as a JSON leaf (`None` serializes to `null`). -/
def jsonOfOptStr : Option String → JsonVal
  | none => .null
  | some s => .str s

/-- Modelled from the spec: msrest's `SearchRequest.serialize()` renders the
request as a JSON-ready mapping; the inverse `deserialize` restores the
protocol object.  Serialization emits one member per field. -/
def SearchRequest.serialize (r : SearchRequest) : JsonVal :=
  .obj (.cons "search" (jsonOfOptStr r.search_text)
    (.cons "filter" (jsonOfOptStr r.filter) .nil))

/-- Read an optional string field back from a serialized member. -/
def jsonFieldOptStr : Option JsonVal → Except PyErr (Option String)
  | none => .ok none
  | some .null => .ok none
  | some (.str s) => .ok (some s)
  | some (.obj _) => .error .typeError

/-- Modelled from the spec: msrest's `SearchRequest.deserialize`, the inverse
of `serialize` (missing fields deserialize to `None`; a non-mapping payload
is a deserialization error). -/
def SearchRequest.deserialize (v : JsonVal) : Except PyErr SearchRequest :=
  match v with
  | .obj ms => do
    let st ← jsonFieldOptStr (jsonMembersGet ms "search")
    let fl ← jsonFieldOptStr (jsonMembersGet ms "filter")
    return { search_text := st, filter := fl }
  | _ => .error .typeError

/-- The relevant part of the generated `SearchDocumentsResult` response
model: the next-page link and the next-page parameters (both optional), and
the raw result rows. -/
structure SearchDocumentsResult where
  next_link : Option String
  next_page_parameters : Option SearchRequest
  results : List SearchResult

/-- The API version constant bound inside `pack_continuation_token`. -/
def api_version : String := "2019-05-06-Preview"

/-- The token dictionary literal built by `pack_continuation_token`
(insertion order: `apiVersion`, `nextLink`, `nextPageParameters`). -/
def tokenMembers (response : SearchDocumentsResult) (p : SearchRequest) : JsonMembers :=
  .cons "apiVersion" (.str api_version)
    (.cons "nextLink" (jsonOfOptStr response.next_link)
      (.cons "nextPageParameters" (SearchRequest.serialize p) .nil))

/-- `pack_continuation_token` from the source:

```python
def pack_continuation_token(response):
    api_version = "2019-05-06-Preview"
    if response.next_page_parameters is not None:
        token = {
            "apiVersion": api_version,
            "nextLink": response.next_link,
            "nextPageParameters": response.next_page_parameters.serialize(),
        }
        return base64.b64encode(json.dumps(token).encode("utf-8"))
    return None
```
-/
def pack_continuation_token (response : SearchDocumentsResult) : Option String :=
  match response.next_page_parameters with
  | some p =>
    some (b64encode (utf8Encode (jsonDumps (.obj (tokenMembers response p)))))
  | none => none

/-- Python `token[key]` on a decoded JSON value: a `KeyError` when the key is
absent from a mapping, a `TypeError` when the value is not a mapping. -/
def pySubscript (v : JsonVal) (key : String) : Except PyErr JsonVal :=
  match v with
  | .obj ms =>
    match jsonMembersGet ms key with
    | some x => .ok x
    | none => .error .keyError
  | _ => .error .typeError

/-- `unpack_continuation_token` from the source:

```python
def unpack_continuation_token(token):
    unpacked_token = json.loads(base64.b64decode(token))
    next_link = unpacked_token["nextLink"]
    next_page_parameters = unpacked_token["nextPageParameters"]
    next_page_request = SearchRequest.deserialize(next_page_parameters)
    return next_link
```

Note the function returns only `next_link`; `next_page_request` is computed
and then discarded.  (`json.loads` accepts the `bytes` output of
`b64decode` and decodes it as UTF-8 first.)  No `apiVersion` check occurs. -/
def unpack_continuation_token (token : String) : Except PyErr JsonVal := do
  let decoded ← b64decode token
  let text ← utf8Decode decoded
  let unpacked_token ← jsonLoads (String.mk text)
  let next_link ← pySubscript unpacked_token "nextLink"
  let next_page_parameters ← pySubscript unpacked_token "nextPageParameters"
  let _next_page_request ← SearchRequest.deserialize next_page_parameters
  return next_link

/-- The intermediate value `next_page_request` that
`unpack_continuation_token` computes from a token right before discarding
it (the same pipeline, projected on the deserialized request). -/
def decodedPageParameters (token : String) : Except PyErr SearchRequest := do
  let decoded ← b64decode token
  let text ← utf8Decode decoded
  let unpacked_token ← jsonLoads (String.mk text)
  let _next_link ← pySubscript unpacked_token "nextLink"
  let next_page_parameters ← pySubscript unpacked_token "nextPageParameters"
  SearchRequest.deserialize next_page_parameters

/-- A structurally well-formed token whose `apiVersion` tag is an arbitrary
string and whose `nextLink` is `"L"`, with an empty parameter mapping. -/
def versionedToken (version : String) : String :=
  b64encode (utf8Encode (jsonDumps (.obj (.cons "apiVersion" (.str version)
    (.cons "nextLink" (.str "L") (.cons "nextPageParameters" (.obj .nil) .nil))))))

/-- Python 2-target tuple unpacking `a, b = v` applied to a decoded JSON
value: iterating a string yields its characters (so it succeeds only on a
2-character string), iterating a mapping yields its keys, `None` is not
iterable, and any other arity raises `ValueError`. -/
def pyIterUnpack2 (v : JsonVal) : Except PyErr (JsonVal × JsonVal) :=
  match v with
  | .str s =>
    match s.toList with
    | [c1, c2] => .ok (.str (String.mk [c1]), .str (String.mk [c2]))
    | _ => .error .valueError
  | .obj ms =>
    match jsonMembersKeys ms with
    | [k1, k2] => .ok (.str k1, .str k2)
    | _ => .error .valueError
  | .null => .error .typeError

/-- The `_unpack_next_link` callback wired into `search`:

```python
def _unpack_next_link(next_link=None):
    _next_link, _ = unpack_continuation_token(next_link)
    return _next_link
```

It tuple-unpacks the value returned by `unpack_continuation_token` — which
is the decoded `nextLink` alone, not a pair. -/
def unpack_next_link (next_link : String) : Except PyErr JsonVal := do
  let r ← unpack_continuation_token next_link
  let p ← pyIterUnpack2 r
  return p.1

/-- Python `str(value)` as used when `str.format` substitutes a value.
(The decimal rendering of floats and the `repr` of containers are not
exercised by any checked template, and are left as their Lean `toString`
or a placeholder.) -/
def pyStr : Val → String
  | .vnone => "None"
  | .vstr s => s
  | .vint n => toString n
  | .vfloat q => toString q
  | .vhl _ => ""

/-- Python's substring containment `needle in hay`, on character lists. -/
def listContains (hay needle : List Char) : Bool :=
  match hay with
  | [] => needle.isEmpty
  | c :: t => needle.isPrefixOf (c :: t) || listContains t needle

/-- Split at the first closing brace (the end of a `format` placeholder). -/
def splitAtRBrace : List Char → Option (List Char × List Char)
  | [] => none
  | c :: rest =>
    if c = rbrace then some ([], rest)
    else (splitAtRBrace rest).map fun p => (c :: p.1, p.2)

/-- Python `statement.format(**kw)` restricted to plain `{name}`
placeholders (with `{{`/`}}` brace escapes): replaces each placeholder by
`str(value)` of the named keyword, raising `KeyError` for a missing name and
`ValueError` for malformed braces.  Substituted text is not re-scanned.  The
fuel (one unit per template character consumed) keeps the recursion
structural; `pyFormat` supplies ample fuel. -/
def pyFormatAux : Nat → List Char → List (String × Val) → Except PyErr (List Char)
  | 0, _, _ => .error .valueError
  | _ + 1, [], _ => .ok []
  | fuel + 1, c :: cs, kw =>
    if c = lbrace then
      match cs with
      | c2 :: cs2 =>
        if c2 = lbrace then (pyFormatAux fuel cs2 kw).map fun r => lbrace :: r
        else
          match splitAtRBrace (c2 :: cs2) with
          | none => .error .valueError
          | some (nameChars, rest) =>
            match dictGet kw (String.mk nameChars) with
            | none => .error .keyError
            | some v => (pyFormatAux fuel rest kw).map fun r => (pyStr v).toList ++ r
      | [] => .error .valueError
    else if c = rbrace then
      match cs with
      | c2 :: cs2 =>
        if c2 = rbrace then (pyFormatAux fuel cs2 kw).map fun r => rbrace :: r
        else .error .valueError
      | [] => .error .valueError
    else (pyFormatAux fuel cs kw).map fun r => c :: r

/-- `statement.format(**kw)`. -/
def pyFormat (statement : String) (kw : List (String × Val)) : Except PyErr String :=
  (pyFormatAux (statement.length + 1) statement.toList kw).map String.mk

/-- `value.replace("'", "''")`: duplicate every single quote. -/
def duplicateSingleQuotes : List Char → List Char
  | [] => []
  | c :: rest =>
    if c = squote then squote :: squote :: duplicateSingleQuotes rest
    else c :: duplicateSingleQuotes rest

/-- `odata` from the source:

```python
def odata(statement, **kwargs):
    kw = dict(kwargs)
    for key in kw:
        value = kw[key]
        if isinstance(value, six.string_types):
            value = value.replace("'", "''")
            if "'{{{}}}'".format(key) not in statement:
                kw[key] = "'{}'".format(value)
    return statement.format(**kw)
```

Note that when the template already wraps the placeholder in explicit
quotes, `kw[key]` is left as the original value — the quote-doubled `value`
local is discarded. -/
def odata (statement : String) (kwargs : List (String × Val)) : Except PyErr String :=
  let kw := kwargs.map fun kv =>
    match kv.2 with
    | .vstr s =>
      let value := String.mk (duplicateSingleQuotes s.toList)
      if listContains statement.toList
          (squote :: lbrace :: (kv.1.toList ++ [rbrace, squote])) then kv
      else (kv.1, Val.vstr (String.mk (squote :: (value.toList ++ [squote]))))
    | _ => kv
  pyFormat statement kw

/-- Modelled from the spec: the immutable query descriptor `SearchQuery` of
`_queries` (not under `src/`) wraps a protocol-level request payload; the
plain-string convenience form sets only the search text. -/
structure SearchQuery where
  request : SearchRequest
deriving DecidableEq, Repr

/-- `SearchQuery(search_text=query)`: the wrapping `search` applies to a
plain string argument. -/
def SearchQuery.ofSearchText (s : String) : SearchQuery :=
  ⟨{ search_text := some s, filter := none }⟩

/-- Modelled from the spec: the `SuggestQuery` descriptor of `_queries`. -/
structure SuggestQuery where
  request : SearchRequest
deriving DecidableEq, Repr

/-- A dynamically typed argument handed to `search`: a plain string, a
structured query, or some other object (an integer standing for the
latter). -/
inductive PySearchArg where
  | str (s : String)
  | int (n : Int)
  | query (q : SearchQuery)
deriving DecidableEq, Repr

/-- A dynamically typed argument handed to `suggest`. -/
inductive PySuggestArg where
  | query (q : SuggestQuery)
  | other
deriving DecidableEq, Repr

/-- Client-facade state: construction parameters and the client-wide default
headers (the credential's api-key header among them). -/
structure SearchIndexClientState where
  endpoint : String
  index_name : String
  default_headers : List (String × String)
deriving Repr

/-- Modelled from the spec: `HeadersMixin._merge_client_headers` (from
`.._headers_mixin`, not under `src/`) merges caller-supplied request headers
with the client-wide defaults, call-level keys overriding defaults. -/
def merge_client_headers (c : SearchIndexClientState)
    (headers : Option (List (String × String))) : List (String × String) :=
  match headers with
  | none => c.default_headers
  | some hs => hs.foldl (fun acc kv => dictSet acc kv.1 kv.2) c.default_headers

/-- The transport request observed by the generated client's
`documents.search_post`: the protocol request plus the keyword arguments
(headers) actually forwarded — `none` when the call forwards no `**kwargs`. -/
structure SearchPostCall where
  request : SearchRequest
  kwargs_headers : Option (List (String × String))
deriving DecidableEq, Repr

/-- The transport request observed by `documents.suggest_post`. -/
structure SuggestPostCall where
  suggest_request : SearchRequest
  kwargs_headers : Option (List (String × String))
deriving DecidableEq, Repr

/-- `SearchIndexClient.search` (transport-visible behaviour):

```python
if isinstance(query, six.string_types):
    query = SearchQuery(search_text=query)
elif not isinstance(query, SearchQuery):
    raise TypeError(...)
kwargs["headers"] = self._merge_client_headers(kwargs.get("headers"))
return self._client.documents.search_post(query.request,
                                          extract_data=_extract_data_cb,
                                          unpack_next_link=_unpack_next_link,
                                          item_paged=SearchItemPaged)
```

The type guard runs before anything else, so a `TypeError` result means no
transport call was issued.  The merged headers are written into `kwargs`,
but `search_post` is invoked without `**kwargs`, so they are not forwarded:
the call's `kwargs_headers` is `none`. -/
def SearchIndexClient.search (c : SearchIndexClientState) (query : PySearchArg)
    (headers : Option (List (String × String))) : Except PyErr SearchPostCall :=
  match (match query with
    | .str s => .ok (SearchQuery.ofSearchText s)
    | .query q => .ok q
    | .int _ => .error .typeError : Except PyErr SearchQuery) with
  | .error e => .error e
  | .ok q =>
    let _kwargs_headers := merge_client_headers c headers
    .ok { request := q.request, kwargs_headers := none }

/-- `SearchIndexClient.suggest` (transport-visible behaviour): the type
guard runs first; the merged headers are written into `kwargs` and
`suggest_post` is invoked with `**kwargs`, so they are forwarded. -/
def SearchIndexClient.suggest (c : SearchIndexClientState) (query : PySuggestArg)
    (headers : Option (List (String × String))) : Except PyErr SuggestPostCall :=
  match query with
  | .other => .error .typeError
  | .query q =>
    .ok { suggest_request := q.request,
          kwargs_headers := some (merge_client_headers c headers) }

/-- A concrete row used to exhibit the in-place mutation performed by
`convert_search_result`. -/
def row0 : SearchResult :=
  { additional_properties := [("id", .vstr "1")], score := .vfloat 3.5,
    highlights := .vnone }

/-- The concrete example row of the specification: score `3.5`, highlights
`{"title": ["foo"]}`, field bag `{"id": "1"}`. -/
def exampleRow : SearchResult :=
  { additional_properties := [("id", .vstr "1")], score := .vfloat 3.5,
    highlights := .vhl [("title", ["foo"])] }

/-- A concrete row carrying neither score nor highlights (both `None`). -/
def noHighlightRow : SearchResult :=
  { additional_properties := [("id", .vstr "2")], score := .vnone,
    highlights := .vnone }

/-- A concrete page-1 response carrying paging-continuation data. -/
def page1Response : SearchDocumentsResult :=
  { next_link := some "https://service/page2",
    next_page_parameters := some { search_text := some "x", filter := none },
    results := [] }

/-- The docstring template `"name eq {name} and age eq {age}"`. -/
def docTemplate : String :=
  String.mk ("name eq ".toList ++ [lbrace] ++ "name".toList ++ [rbrace] ++
    " and age eq ".toList ++ [lbrace] ++ "age".toList ++ [rbrace])

/-- The value `"O'Neil"`. -/
def oneilVal : String := String.mk ("O".toList ++ [squote] ++ "Neil".toList)

/-- The docstring's expected output `"name eq 'O''Neil' and age eq 37"`. -/
def docExpected : String :=
  String.mk ("name eq ".toList ++ [squote, 'O', squote, squote] ++ "Neil".toList ++
    [squote] ++ " and age eq 37".toList)

/-- A template that already wraps its placeholder in explicit quotes:
`"name eq '{name}'"`. -/
def quotedTemplate : String :=
  String.mk ("name eq ".toList ++ [squote, lbrace] ++ "name".toList ++ [rbrace, squote])

/-- What the source produces on `quotedTemplate` with `name="O'Neil"`:
`"name eq 'O'Neil'"` — the embedded quote is left unescaped. -/
def quotedActual : String :=
  String.mk ("name eq ".toList ++ [squote, 'O', squote] ++ "Neil".toList ++ [squote])

/-- What the claim's escaping rule would produce on `quotedTemplate`:
`"name eq 'O''Neil'"` — quotes duplicated, value not re-wrapped. -/
def quotedClaimed : String :=
  String.mk ("name eq ".toList ++ [squote, 'O', squote, squote] ++ "Neil".toList ++
    [squote])

/-- The spec's §8 template `"x eq {v}"`. -/
def specTemplate : String := String.mk ("x eq ".toList ++ [lbrace, 'v', rbrace])

/-- A concrete client state with one default header. -/
def client0 : SearchIndexClientState :=
  { endpoint := "https://search.example", index_name := "hotels",
    default_headers := [("api-key", "secret")] }

set_option maxRecDepth 10000

theorem dictGet_dictSet_self {α : Type} (d : List (String × α)) (k : String) (v : α) :
    dictGet (dictSet d k v) k = some v := by
  induction d with
  | nil => simp [dictSet, dictGet]
  | cons hd tl ih =>
    obtain ⟨k', v'⟩ := hd
    by_cases h : k' = k <;> simp [dictSet, dictGet, h, ih]

theorem dictGet_dictSet_other {α : Type} (d : List (String × α)) (k k' : String) (v : α)
    (hne : k' ≠ k) : dictGet (dictSet d k v) k' = dictGet d k' := by
  have hne' : k ≠ k' := fun h => hne h.symm
  induction d with
  | nil => simp [dictSet, dictGet, hne']
  | cons hd tl ih =>
    obtain ⟨k0, v0⟩ := hd
    by_cases h : k0 = k
    · subst h
      simp [dictSet, dictGet, hne']
    · by_cases h2 : k0 = k' <;> simp [dictSet, dictGet, h, h2, hne, ih]

theorem dictSet_append_of_absent {α : Type} (d : List (String × α)) (k : String) (v : α)
    (h : dictGet d k = none) : dictSet d k v = d ++ [(k, v)] := by
  induction d with
  | nil => simp [dictSet]
  | cons hd tl ih =>
    obtain ⟨k', v'⟩ := hd
    by_cases hk : k' = k
    · simp [dictGet, hk] at h
    · simp [dictGet, hk] at h
      simp [dictSet, hk, ih h]

theorem dictSet_length_of_present {α : Type} (d : List (String × α)) (k : String) (v : α)
    (h : (dictGet d k).isSome) : (dictSet d k v).length = d.length := by
  induction d with
  | nil => simp [dictGet] at h
  | cons hd tl ih =>
    obtain ⟨k', v'⟩ := hd
    by_cases hk : k' = k
    · simp [dictSet, hk]
    · simp [dictGet, hk] at h
      simp [dictSet, hk, ih h]

theorem mk_toList (s : String) : String.mk s.toList = s := by
  cases s
  rfl

theorem parseJsonString_jsonEscape (s : List Char) (rest : List Char) :
    parseJsonString (jsonEscape s ++ dquote :: rest) = .ok (s, rest) := by
  induction s with
  | nil =>
    rw [jsonEscape, List.nil_append, parseJsonString.eq_def]
    simp
  | cons c cs ih =>
    by_cases h : c = dquote ∨ c = bslash
    · rw [jsonEscape, if_pos h, List.cons_append, List.cons_append,
        parseJsonString.eq_def]
      simp only [show ¬bslash = dquote by decide, if_neg, if_pos rfl, ite_false, ite_true]
      simp [h, ih, Except.map]
    · rw [jsonEscape, if_neg h, List.cons_append, parseJsonString.eq_def]
      have h1 : ¬c = dquote := fun hc => h (Or.inl hc)
      have h2 : ¬c = bslash := fun hc => h (Or.inr hc)
      simp [h1, h2, ih, Except.map]

theorem jsonDumpMembers_nil : jsonDumpMembers .nil = [rbrace] := by
  rw [jsonDumpMembers.eq_def]

theorem jsonDumpMembers_cons_nil (k : String) (v : JsonVal) :
    jsonDumpMembers (.cons k v .nil) =
      jsonDumpString k ++ (':' :: ' ' :: jsonDumpChars v) ++ [rbrace] := by
  rw [jsonDumpMembers.eq_def]

theorem jsonDumpMembers_cons_cons (k : String) (v : JsonVal) (k2 : String) (v2 : JsonVal)
    (m2 : JsonMembers) :
    jsonDumpMembers (.cons k v (.cons k2 v2 m2)) =
      jsonDumpString k ++ (':' :: ' ' :: jsonDumpChars v) ++
        (',' :: ' ' :: jsonDumpMembers (.cons k2 v2 m2)) := by
  rw [jsonDumpMembers.eq_def]

theorem jsonDumpMembers_cons_head (k : String) (v : JsonVal) (m : JsonMembers) :
    ∃ t, jsonDumpMembers (.cons k v m) = dquote :: t := by
  cases m <;>
    simp [jsonDumpMembers_cons_nil, jsonDumpMembers_cons_cons, jsonDumpString]

mutual

theorem parseJsonVal_dumps (j : JsonVal) : ∀ (fuel : Nat) (rest : List Char),
    jsonWeight j ≤ fuel → parseJsonVal fuel (jsonDumpChars j ++ rest) = .ok (j, rest) := by
  cases j with
  | null =>
    intro fuel rest h
    cases fuel with
    | zero => exfalso; simp only [jsonWeight] at h; omega
    | succ f =>
      rw [jsonDumpChars, parseJsonVal.eq_def]
      simp
  | str s =>
    intro fuel rest h
    cases fuel with
    | zero => exfalso; simp only [jsonWeight] at h; omega
    | succ f =>
      rw [jsonDumpChars, jsonDumpString, List.cons_append, parseJsonVal.eq_def]
      simp only [List.append_assoc, List.cons_append]
      simp [show ¬dquote = 'n' by decide, parseJsonString_jsonEscape, mk_toList, Except.map]
  | obj m =>
    cases m with
    | nil =>
      intro fuel rest h
      cases fuel with
      | zero => exfalso; simp only [jsonWeight, jsonWeightMembers] at h; omega
      | succ f =>
        rw [jsonDumpChars, parseJsonVal.eq_def]
        simp only [jsonDumpMembers_nil, List.cons_append, List.singleton_append]
        simp [show ¬lbrace = 'n' by decide, show ¬lbrace = dquote by decide]
    | cons k v m' =>
      intro fuel rest h
      cases fuel with
      | zero => exfalso; simp only [jsonWeight, jsonWeightMembers] at h; omega
      | succ f =>
        have hw : jsonWeightMembers (.cons k v m') ≤ f := by
          simp only [jsonWeight] at h
          omega
        have hmem := parseJsonMembers_dumps k v m' f rest hw
        obtain ⟨t, ht⟩ := jsonDumpMembers_cons_head k v m'
        rw [jsonDumpChars, parseJsonVal.eq_def]
        rw [ht] at hmem ⊢
        simp only [List.cons_append] at hmem
        simp [List.cons_append, show ¬lbrace = 'n' by decide,
          show ¬lbrace = dquote by decide, show ¬dquote = rbrace by decide, hmem,
          Except.map]
termination_by sizeOf j

theorem parseJsonMembers_dumps (k : String) (v : JsonVal) (m : JsonMembers) :
    ∀ (fuel : Nat) (rest : List Char),
    jsonWeightMembers (.cons k v m) ≤ fuel →
    parseJsonMembers fuel (jsonDumpMembers (.cons k v m) ++ rest) = .ok (.cons k v m, rest) := by
  intro fuel rest h
  cases fuel with
  | zero => exfalso; simp only [jsonWeightMembers] at h; omega
  | succ f =>
    have hv : jsonWeight v ≤ f := by
      simp only [jsonWeightMembers] at h
      omega
    cases m with
    | nil =>
      have hval := parseJsonVal_dumps v f (rbrace :: rest) hv
      rw [parseJsonMembers.eq_def]
      simp only [jsonDumpMembers_cons_nil, jsonDumpString, List.cons_append,
        List.append_assoc]
      simp [parseJsonString_jsonEscape, hval, mk_toList, Except.map]
    | cons k2 v2 m2 =>
      have hw2 : jsonWeightMembers (.cons k2 v2 m2) ≤ f := by
        simp only [jsonWeightMembers] at h ⊢
        omega
      have hval := parseJsonVal_dumps v f
        (',' :: ' ' :: (jsonDumpMembers (.cons k2 v2 m2) ++ rest)) hv
      have hmem := parseJsonMembers_dumps k2 v2 m2 f rest hw2
      rw [parseJsonMembers.eq_def]
      simp only [jsonDumpMembers_cons_cons, jsonDumpString, List.cons_append,
        List.append_assoc]
      simp [parseJsonString_jsonEscape, hval, hmem, mk_toList, Except.map,
        show ¬(',' : Char) = rbrace by decide]
termination_by sizeOf (JsonMembers.cons k v m)
end

mutual

theorem jsonWeight_le_length (j : JsonVal) :
    jsonWeight j ≤ (jsonDumpChars j).length := by
  cases j with
  | null => simp [jsonWeight, jsonDumpChars]
  | str s => simp [jsonWeight, jsonDumpChars, jsonDumpString]
  | obj m =>
    cases m with
    | nil =>
      simp [jsonWeight, jsonWeightMembers, jsonDumpChars, jsonDumpMembers_nil]
    | cons k v m' =>
      have h := jsonWeightMembers_le_length k v m'
      simp only [jsonWeight, jsonDumpChars, List.length_cons]
      omega
termination_by sizeOf j

theorem jsonWeightMembers_le_length (k : String) (v : JsonVal) (m : JsonMembers) :
    jsonWeightMembers (.cons k v m) ≤ (jsonDumpMembers (.cons k v m)).length := by
  have hv := jsonWeight_le_length v
  cases m with
  | nil =>
    simp only [jsonWeightMembers, jsonDumpMembers_cons_nil, jsonDumpString,
      List.length_append, List.length_cons, List.length_singleton]
    omega
  | cons k2 v2 m2 =>
    have h2 := jsonWeightMembers_le_length k2 v2 m2
    simp only [jsonWeightMembers, jsonDumpMembers_cons_cons, jsonDumpString,
      List.length_append, List.length_cons] at h2 ⊢
    omega
termination_by sizeOf (JsonMembers.cons k v m)
end

theorem jsonLoads_jsonDumps (j : JsonVal) : jsonLoads (jsonDumps j) = .ok j := by
  have hw : jsonWeight j ≤ (jsonDumpChars j).length + 1 :=
    le_trans (jsonWeight_le_length j) (by omega)
  have h := parseJsonVal_dumps j ((jsonDumpChars j).length + 1) [] hw
  rw [List.append_nil] at h
  unfold jsonLoads jsonDumps
  have hlen : (String.mk (jsonDumpChars j)).length = (jsonDumpChars j).length := rfl
  have htl : (String.mk (jsonDumpChars j)).toList = jsonDumpChars j := rfl
  rw [hlen, htl, h]

/-- Every byte emitted by the UTF-8 encoder fits in an octet. -/
theorem utf8EncodeChar_lt_256 (n : Nat) (h : n < 1114112) :
    ∀ b ∈ utf8EncodeChar n, b < 256 := by
  intro b hb
  unfold utf8EncodeChar at hb
  split at hb
  · simp at hb
    omega
  · split at hb
    · simp at hb
      rcases hb with hb | hb <;> omega
    · split at hb
      · simp at hb
        rcases hb with hb | hb | hb <;> omega
      · simp at hb
        rcases hb with hb | hb | hb | hb <;> omega

/-- Each character contributes at least one byte. -/
theorem length_le_utf8EncodeList (cs : List Char) :
    cs.length ≤ (utf8EncodeList cs).length := by
  induction cs with
  | nil => simp [utf8EncodeList]
  | cons c rest ih =>
    have h : 1 ≤ (utf8EncodeChar c.toNat).length := by
      unfold utf8EncodeChar
      split
      · simp
      · split
        · simp
        · split <;> simp
    simp only [utf8EncodeList, List.length_append, List.length_cons]
    omega

theorem char_toNat_lt (c : Char) : c.toNat < 1114112 := by
  have h := c.valid
  simp only [Char.toNat]
  rcases h with h | h <;> omega

theorem utf8DecodeAux_encodeList (cs : List Char) : ∀ (fuel : Nat), cs.length ≤ fuel →
    utf8DecodeAux fuel (utf8EncodeList cs) = .ok cs := by
  induction cs with
  | nil =>
    intro fuel h
    cases fuel <;> rfl
  | cons c rest ih =>
    intro fuel h
    cases fuel with
    | zero => simp at h
    | succ f =>
      have hc : c.toNat < 1114112 := char_toNat_lt c
      have hrest : utf8DecodeAux f (utf8EncodeList rest) = .ok rest := by
        apply ih
        simp only [List.length_cons] at h
        omega
      rw [utf8EncodeList]
      by_cases h1 : c.toNat < 128
      · rw [utf8EncodeChar, if_pos h1]
        simp [utf8DecodeAux, h1, hrest, Char.ofNat_toNat, Except.map]
      · by_cases h2 : c.toNat < 2048
        · rw [utf8EncodeChar, if_neg h1, if_pos h2]
          have hb1 : ¬(192 + c.toNat / 64 < 128) := by omega
          have hb2 : ¬(192 + c.toNat / 64 < 192) := by omega
          have hb3 : 192 + c.toNat / 64 < 224 := by omega
          have hb4 : 128 ≤ 128 + c.toNat % 64 ∧ 128 + c.toNat % 64 < 192 := by omega
          have hval : (192 + c.toNat / 64 - 192) * 64 + (128 + c.toNat % 64 - 128) =
              c.toNat := by omega
          simp [utf8DecodeAux, hb1, hb2, hb3, hb4, hval, hrest, Except.map]
          rw [show c.toNat / 64 * 64 + c.toNat % 64 = c.toNat by omega,
            Char.ofNat_toNat]
        · by_cases h3 : c.toNat < 65536
          · rw [utf8EncodeChar, if_neg h1, if_neg h2, if_pos h3]
            have hb1 : ¬(224 + c.toNat / 4096 < 128) := by omega
            have hb2 : ¬(224 + c.toNat / 4096 < 192) := by omega
            have hb3 : ¬(224 + c.toNat / 4096 < 224) := by omega
            have hb4 : 224 + c.toNat / 4096 < 240 := by omega
            have hb5 : 128 ≤ 128 + c.toNat / 64 % 64 ∧ 128 + c.toNat / 64 % 64 < 192 := by
              omega
            have hb6 : 128 ≤ 128 + c.toNat % 64 ∧ 128 + c.toNat % 64 < 192 := by omega
            have hval : (224 + c.toNat / 4096 - 224) * 4096 +
                (128 + c.toNat / 64 % 64 - 128) * 64 + (128 + c.toNat % 64 - 128) =
                c.toNat := by omega
            simp [utf8DecodeAux, hb1, hb2, hb3, hb4, hb5, hb6, hval, hrest, Except.map]
            rw [show c.toNat / 4096 * 4096 + c.toNat / 64 % 64 * 64 + c.toNat % 64 =
              c.toNat by omega, Char.ofNat_toNat]
          · rw [utf8EncodeChar, if_neg h1, if_neg h2, if_neg h3]
            have hb1 : ¬(240 + c.toNat / 262144 < 128) := by omega
            have hb2 : ¬(240 + c.toNat / 262144 < 192) := by omega
            have hb3 : ¬(240 + c.toNat / 262144 < 224) := by omega
            have hb4 : ¬(240 + c.toNat / 262144 < 240) := by omega
            have hb5 : 128 ≤ 128 + c.toNat / 4096 % 64 ∧
                128 + c.toNat / 4096 % 64 < 192 := by omega
            have hb6 : 128 ≤ 128 + c.toNat / 64 % 64 ∧ 128 + c.toNat / 64 % 64 < 192 := by
              omega
            have hb7 : 128 ≤ 128 + c.toNat % 64 ∧ 128 + c.toNat % 64 < 192 := by omega
            have hval : (240 + c.toNat / 262144 - 240) * 262144 +
                (128 + c.toNat / 4096 % 64 - 128) * 4096 +
                (128 + c.toNat / 64 % 64 - 128) * 64 + (128 + c.toNat % 64 - 128) =
                c.toNat := by omega
            simp [utf8DecodeAux, hb1, hb2, hb3, hb4, hb5, hb6, hb7, hval, hrest,
              Except.map]
            rw [show c.toNat / 262144 * 262144 + c.toNat / 4096 % 64 * 4096 +
              c.toNat / 64 % 64 * 64 + c.toNat % 64 = c.toNat by omega,
              Char.ofNat_toNat]

theorem utf8Decode_utf8EncodeList (cs : List Char) :
    utf8Decode (utf8EncodeList cs) = .ok cs :=
  utf8DecodeAux_encodeList cs (utf8EncodeList cs).length (length_le_utf8EncodeList cs)

theorem b64Val_b64Char : ∀ n, n < 64 → b64Val (b64Char n) = some n := by decide

theorem b64Char_ne_pad : ∀ n, n < 64 → ¬b64Char n = '=' := by decide

theorem b64KeepChar_b64Char : ∀ n, n < 64 → b64KeepChar (b64Char n) = true := by decide

theorem b64DecodeChunks_encode : ∀ (bs : List Nat), (∀ b ∈ bs, b < 256) →
    b64DecodeChunks (b64EncodeChunks bs) = .ok bs
  | [], _ => by simp [b64EncodeChunks, b64DecodeChunks]
  | [a], h => by
    have ha : a < 256 := h a (by simp)
    rw [b64EncodeChunks, b64DecodeChunks]
    rw [b64Val_b64Char (a / 4) (by omega), b64Val_b64Char (a % 4 * 16) (by omega)]
    simp
    omega
  | [a, b], h => by
    have ha : a < 256 := h a (by simp)
    have hb : b < 256 := h b (by simp)
    rw [b64EncodeChunks, b64DecodeChunks]
    rw [b64Val_b64Char (a / 4) (by omega),
      b64Val_b64Char (a % 4 * 16 + b / 16) (by omega)]
    simp [b64Char_ne_pad (b % 16 * 4) (by omega),
      b64Val_b64Char (b % 16 * 4) (by omega)]
    omega
  | a :: b :: c :: rest, h => by
    have ha : a < 256 := h a (by simp)
    have hb : b < 256 := h b (by simp)
    have hc : c < 256 := h c (by simp)
    have ih := b64DecodeChunks_encode rest (fun x hx => h x (by simp [hx]))
    rw [show b64EncodeChunks (a :: b :: c :: rest) =
      b64Char (a / 4) :: b64Char (a % 4 * 16 + b / 16) ::
        b64Char (b % 16 * 4 + c / 64) :: b64Char (c % 64) ::
        b64EncodeChunks rest from rfl]
    rw [b64DecodeChunks]
    rw [b64Val_b64Char (a / 4) (by omega),
      b64Val_b64Char (a % 4 * 16 + b / 16) (by omega)]
    simp [b64Char_ne_pad (b % 16 * 4 + c / 64) (by omega),
      b64Char_ne_pad (c % 64) (by omega),
      b64Val_b64Char (b % 16 * 4 + c / 64) (by omega),
      b64Val_b64Char (c % 64) (by omega), ih, Except.map]
    all_goals omega

theorem b64EncodeChunks_keep : ∀ (bs : List Nat), (∀ b ∈ bs, b < 256) →
    ∀ ch ∈ b64EncodeChunks bs, b64KeepChar ch = true
  | [], _ => by simp [b64EncodeChunks]
  | [a], h => by
    have ha : a < 256 := h a (by simp)
    rw [b64EncodeChunks]
    intro ch hch
    simp at hch
    rcases hch with rfl | rfl | rfl
    · exact b64KeepChar_b64Char (a / 4) (by omega)
    · exact b64KeepChar_b64Char (a % 4 * 16) (by omega)
    · decide
  | [a, b], h => by
    have ha : a < 256 := h a (by simp)
    have hb : b < 256 := h b (by simp)
    rw [b64EncodeChunks]
    intro ch hch
    simp at hch
    rcases hch with rfl | rfl | rfl | rfl
    · exact b64KeepChar_b64Char (a / 4) (by omega)
    · exact b64KeepChar_b64Char (a % 4 * 16 + b / 16) (by omega)
    · exact b64KeepChar_b64Char (b % 16 * 4) (by omega)
    · decide
  | a :: b :: c :: rest, h => by
    have ha : a < 256 := h a (by simp)
    have hb : b < 256 := h b (by simp)
    have hc : c < 256 := h c (by simp)
    have ih := b64EncodeChunks_keep rest (fun x hx => h x (by simp [hx]))
    rw [show b64EncodeChunks (a :: b :: c :: rest) =
      b64Char (a / 4) :: b64Char (a % 4 * 16 + b / 16) ::
        b64Char (b % 16 * 4 + c / 64) :: b64Char (c % 64) ::
        b64EncodeChunks rest from rfl]
    intro ch hch
    simp at hch
    rcases hch with rfl | rfl | rfl | rfl | hch
    · exact b64KeepChar_b64Char (a / 4) (by omega)
    · exact b64KeepChar_b64Char (a % 4 * 16 + b / 16) (by omega)
    · exact b64KeepChar_b64Char (b % 16 * 4 + c / 64) (by omega)
    · exact b64KeepChar_b64Char (c % 64) (by omega)
    · exact ih ch hch

theorem b64decode_b64encode (bs : List Nat) (h : ∀ b ∈ bs, b < 256) :
    b64decode (b64encode bs) = .ok bs := by
  unfold b64decode b64encode
  have htl : (String.mk (b64EncodeChunks bs)).toList = b64EncodeChunks bs := rfl
  rw [htl, List.filter_eq_self.mpr (b64EncodeChunks_keep bs h),
    b64DecodeChunks_encode bs h]

theorem SearchRequest.deserialize_serialize (r : SearchRequest) :
    SearchRequest.deserialize (SearchRequest.serialize r) = .ok r := by
  obtain ⟨st, fl⟩ := r
  cases st <;> cases fl <;> rfl

theorem utf8EncodeList_lt_256 (cs : List Char) : ∀ b ∈ utf8EncodeList cs, b < 256 := by
  induction cs with
  | nil => simp [utf8EncodeList]
  | cons c rest ih =>
    intro b hb
    rw [utf8EncodeList] at hb
    rcases List.mem_append.mp hb with h | h
    · exact utf8EncodeChar_lt_256 c.toNat (char_toNat_lt c) b h
    · exact ih b h

/-- The three decoding steps of `unpack_continuation_token`, applied to a
token produced by the encoding side, each succeed and recover the serialized
JSON value. -/
theorem tokenPipeline_decodes (j : JsonVal) :
    b64decode (b64encode (utf8Encode (jsonDumps j))) = .ok (utf8Encode (jsonDumps j)) ∧
    utf8Decode (utf8Encode (jsonDumps j)) = .ok (jsonDumpChars j) ∧
    jsonLoads (String.mk (jsonDumpChars j)) = .ok j := by
  refine ⟨?_, ?_, ?_⟩
  · exact b64decode_b64encode _ (utf8EncodeList_lt_256 (jsonDumps j).toList)
  · exact utf8Decode_utf8EncodeList (jsonDumpChars j)
  · exact jsonLoads_jsonDumps j

theorem except_bind_ok {ε α β : Type} (a : α) (f : α → Except ε β) :
    (Except.ok a : Except ε α) >>= f = f a := rfl

theorem unpack_of_packed (r : SearchDocumentsResult) (p : SearchRequest) :
    unpack_continuation_token (b64encode (utf8Encode (jsonDumps (.obj (tokenMembers r p))))) =
      .ok (jsonOfOptStr r.next_link) := by
  obtain ⟨h1, h2, h3⟩ := tokenPipeline_decodes (.obj (tokenMembers r p))
  rw [unpack_continuation_token]
  rw [h1]
  rw [except_bind_ok]
  rw [h2]
  rw [except_bind_ok]
  rw [h3]
  rw [except_bind_ok]
  simp [pySubscript, tokenMembers, jsonMembersGet, SearchRequest.deserialize_serialize,
    except_bind_ok]

theorem decodedPageParameters_of_packed (r : SearchDocumentsResult) (p : SearchRequest) :
    decodedPageParameters
      (b64encode (utf8Encode (jsonDumps (.obj (tokenMembers r p))))) = .ok p := by
  obtain ⟨h1, h2, h3⟩ := tokenPipeline_decodes (.obj (tokenMembers r p))
  rw [decodedPageParameters]
  rw [h1]
  rw [except_bind_ok]
  rw [h2]
  rw [except_bind_ok]
  rw [h3]
  rw [except_bind_ok]
  simp [pySubscript, tokenMembers, jsonMembersGet, SearchRequest.deserialize_serialize,
    except_bind_ok]

theorem unpack_versionedToken (version : String) :
    unpack_continuation_token (versionedToken version) = .ok (.str "L") := by
  obtain ⟨h1, h2, h3⟩ := tokenPipeline_decodes (.obj (.cons "apiVersion" (.str version)
    (.cons "nextLink" (.str "L") (.cons "nextPageParameters" (.obj .nil) .nil))))
  rw [versionedToken, unpack_continuation_token]
  rw [h1]
  rw [except_bind_ok]
  rw [h2]
  rw [except_bind_ok]
  rw [h3]
  rw [except_bind_ok]
  simp [pySubscript, jsonMembersGet, SearchRequest.deserialize, jsonFieldOptStr,
    jsonMembersGet, except_bind_ok]

theorem toList_mk (cs : List Char) : (String.mk cs).toList = cs := rfl

theorem dictSet_length_ge {α : Type} (d : List (String × α)) (k : String) (v : α) :
    d.length ≤ (dictSet d k v).length := by
  cases hh : dictGet d k with
  | none =>
    rw [dictSet_append_of_absent d k v hh]
    simp
  | some _ =>
    rw [dictSet_length_of_present d k v (by rw [hh]; rfl)]

theorem dictGet_append_single {α : Type} (d : List (String × α)) (k1 k : String) (v1 : α)
    (h : dictGet d k = none) (hne : k1 ≠ k) : dictGet (d ++ [(k1, v1)]) k = none := by
  induction d with
  | nil => simp [dictGet, hne]
  | cons hd tl ih =>
    obtain ⟨k', v'⟩ := hd
    by_cases hk : k' = k
    · simp [dictGet, hk] at h
    · simp [dictGet, hk] at h ⊢
      exact ih h

theorem pyFormatAux_substOne (v : Val) :
    pyFormatAux 9 ['x', ' ', 'e', 'q', ' ', lbrace, 'v', rbrace] [("v", v)] =
      .ok ('x' :: ' ' :: 'e' :: 'q' :: ' ' :: ((pyStr v).toList ++ [])) := by
  simp only [pyFormatAux, show ¬('x' = lbrace) by decide, show ¬('x' = rbrace) by decide,
    show ¬(' ' = lbrace) by decide, show ¬(' ' = rbrace) by decide,
    show ¬('e' = lbrace) by decide, show ¬('e' = rbrace) by decide,
    show ¬('q' = lbrace) by decide, show ¬('q' = rbrace) by decide,
    show ¬('v' = lbrace) by decide, if_false, if_true, ite_true, ite_false,
    if_pos rfl]
  rw [show splitAtRBrace ['v', rbrace] = some (['v'], []) from rfl]
  simp [Except.map, show (dictGet [("v", v)] (String.mk ['v']) : Option Val) = some v
    from rfl, pyFormatAux]

/-- C1: for every search response that carries paging-continuation data,
decoding the token produced by encoding that response yields the same
next-link the response carried, and the decoding step reconstructs an
equivalent paging-parameters object in the protocol's native form
(`SearchRequest`): `unpack_continuation_token` returns the link, and the
`next_page_request` it computes (`decodedPageParameters`) equals the packed
parameters. -/
theorem claim1_continuation_token_round_trip (r : SearchDocumentsResult)
    (p : SearchRequest) (h : r.next_page_parameters = some p) :
    ∃ tok : String, pack_continuation_token r = some tok ∧
      unpack_continuation_token tok = .ok (jsonOfOptStr r.next_link) ∧
      decodedPageParameters tok = .ok p := by
  refine ⟨_, ?_, unpack_of_packed r p, decodedPageParameters_of_packed r p⟩
  rw [pack_continuation_token, h]

/-- Witness for C1 at a concrete response carrying paging data. -/
theorem claim1_witness :
    page1Response.next_page_parameters = some { search_text := some "x", filter := none } ∧
    ∃ tok : String, pack_continuation_token page1Response = some tok ∧
      unpack_continuation_token tok = .ok (jsonOfOptStr page1Response.next_link) ∧
      decodedPageParameters tok = .ok { search_text := some "x", filter := none } :=
  ⟨rfl, claim1_continuation_token_round_trip page1Response _ rfl⟩

/-- C2 (code bug): on a well-formed persisted token, the `_unpack_next_link`
callback wired into `search` raises `ValueError` instead of returning the
decoded link: it tuple-unpacks (`_next_link, _ = ...`) the value returned by
`unpack_continuation_token`, which is the decoded link string alone, not a
pair — iterating the 21-character link string cannot fill two targets. -/
theorem claim2_unpack_next_link_fails :
    (pack_continuation_token page1Response).map unpack_next_link =
      some (.error .valueError) := by decide

/-- C3 counterexample: decoding a structurally well-formed token whose
protocol-version tag differs from the client's succeeds and returns the
decoded link — `unpack_continuation_token` never reads `apiVersion` — so
the claim's required version-mismatch failure does not occur. -/
theorem claim3_counterexample :
    "1999-01-01" ≠ api_version ∧
    unpack_continuation_token (versionedToken "1999-01-01") = .ok (.str "L") :=
  ⟨by decide, by decide⟩

/-- C3 amended: decoding fails on structurally invalid input — a non-base64
string (`binascii.Error`), valid base64 that is not JSON
(`json.JSONDecodeError`), a JSON payload missing the required keys
(`KeyError`), or a non-mapping payload (`TypeError`) — each as the
propagated generic library exception (there is no distinct malformed-token
error kind in the code); and the protocol-version tag is not validated at
all: a structurally well-formed token with any version string decodes
successfully. -/
theorem claim3_amended :
    unpack_continuation_token "abc" = .error .binasciiError ∧
    unpack_continuation_token (b64encode (utf8Encode "not json")) =
      .error .jsonDecodeError ∧
    unpack_continuation_token (b64encode (utf8Encode (String.mk [lbrace, rbrace]))) =
      .error .keyError ∧
    unpack_continuation_token
        (b64encode (utf8Encode (String.mk ([dquote] ++ "hello".toList ++ [dquote])))) =
      .error .typeError ∧
    ∀ version : String, unpack_continuation_token (versionedToken version) =
      .ok (.str "L") :=
  ⟨by decide, by decide, by decide, by decide, unpack_versionedToken⟩

/-- C4: `pack_continuation_token` returns a token iff the response carries
paging-continuation data (`None` otherwise), and every returned token is the
base-64 encoding of the UTF-8 serialization of a JSON object with exactly
the three keys `apiVersion` (the protocol-version string tag), `nextLink`
(the response's next link) and `nextPageParameters` (the serialized
paging-continuation structure). -/
theorem claim4_pack_token_shape (r : SearchDocumentsResult) :
    (pack_continuation_token r = none ↔ r.next_page_parameters = none) ∧
    ∀ p, r.next_page_parameters = some p →
      pack_continuation_token r =
        some (b64encode (utf8Encode (jsonDumps (.obj (tokenMembers r p))))) ∧
      jsonMembersKeys (tokenMembers r p) =
        ["apiVersion", "nextLink", "nextPageParameters"] ∧
      jsonMembersGet (tokenMembers r p) "apiVersion" = some (.str api_version) ∧
      jsonMembersGet (tokenMembers r p) "nextLink" = some (jsonOfOptStr r.next_link) ∧
      jsonMembersGet (tokenMembers r p) "nextPageParameters" =
        some (SearchRequest.serialize p) := by
  constructor
  · rw [pack_continuation_token]
    cases hr : r.next_page_parameters <;> simp
  · intro p hp
    rw [pack_continuation_token, hp]
    exact ⟨rfl, rfl, rfl, by simp [tokenMembers, jsonMembersGet], by
      simp [tokenMembers, jsonMembersGet]⟩

/-- Witness for C4 at a concrete response carrying paging data. -/
theorem claim4_witness :
    pack_continuation_token page1Response =
      some (b64encode (utf8Encode (jsonDumps (.obj (tokenMembers page1Response
        { search_text := some "x", filter := none }))))) ∧
    jsonMembersKeys (tokenMembers page1Response
        { search_text := some "x", filter := none }) =
      ["apiVersion", "nextLink", "nextPageParameters"] :=
  ⟨((claim4_pack_token_shape page1Response).2 _ rfl).1,
   ((claim4_pack_token_shape page1Response).2 _ rfl).2.1⟩

/-- C5 counterexample: `convert_search_result` is not side-effect-free: on a
concrete row, the row's field bag after the call differs from the field bag
before it (the reserved keys were written into the row's own dict). -/
theorem claim5_counterexample :
    (convert_search_result row0).2.additional_properties ≠
      row0.additional_properties := by decide

/-- C5 amended: `convert_search_result` returns the row's own field bag
mutated in place, not a shallow copy: the returned mapping is the row's
post-call field bag itself (they alias, so mutating the returned mapping is
mutating the row), score and highlights of the row are untouched, and
whenever the reserved score key was absent from the bag the call genuinely
changes the input row's field bag. -/
theorem claim5_convert_mutates (r : SearchResult) :
    (convert_search_result r).1 = (convert_search_result r).2.additional_properties ∧
    (convert_search_result r).2.score = r.score ∧
    (convert_search_result r).2.highlights = r.highlights ∧
    (dictGet r.additional_properties "@search.score" = none →
      (convert_search_result r).2.additional_properties ≠ r.additional_properties) := by
  refine ⟨rfl, rfl, rfl, ?_⟩
  intro h heq
  have h1 : (dictSet r.additional_properties "@search.score" r.score).length =
      r.additional_properties.length + 1 := by
    rw [dictSet_append_of_absent _ _ _ h]
    simp
  have h2 : (dictSet r.additional_properties "@search.score" r.score).length ≤
      (convert_search_result r).2.additional_properties.length :=
    dictSet_length_ge _ _ _
  have h3 := congrArg List.length heq
  omega

/-- Witness for C5's amended statement at a concrete row. -/
theorem claim5_witness :
    (convert_search_result row0).1 = (convert_search_result row0).2.additional_properties ∧
    (convert_search_result row0).2.additional_properties ≠
      row0.additional_properties :=
  ⟨(claim5_convert_mutates row0).1, (claim5_convert_mutates row0).2.2.2 (by decide)⟩

/-- C6: on a row whose field bag does not already contain the reserved keys
(the data-model invariant: reserved-prefix keys never collide with real
document fields), the returned mapping is the row's field bag with exactly
the two reserved keys appended, `"@search.score"` mapped to the row's score
and `"@search.highlights"` to its highlight map; and the claim's concrete
example row (`score 3.5`, highlights `{"title": ["foo"]}`, bag
`{"id": "1"}`) adapts to exactly the stated mapping. -/
theorem claim6_convert_content (r : SearchResult)
    (h1 : dictGet r.additional_properties "@search.score" = none)
    (h2 : dictGet r.additional_properties "@search.highlights" = none) :
    (convert_search_result r).1 =
      r.additional_properties ++
        [("@search.score", r.score), ("@search.highlights", r.highlights)] ∧
    (convert_search_result exampleRow).1 =
      [("id", .vstr "1"), ("@search.score", .vfloat 3.5),
       ("@search.highlights", .vhl [("title", ["foo"])])] := by
  constructor
  · show dictSet (dictSet r.additional_properties "@search.score" r.score)
      "@search.highlights" r.highlights = _
    rw [dictSet_append_of_absent _ _ _ h1]
    rw [dictSet_append_of_absent _ _ _
      (dictGet_append_single r.additional_properties "@search.score"
        "@search.highlights" r.score h2 (by decide))]
    simp
  · rfl

/-- Witness for C6 at the claim's concrete example row. -/
theorem claim6_witness :
    (convert_search_result exampleRow).1 =
      exampleRow.additional_properties ++
        [("@search.score", exampleRow.score),
         ("@search.highlights", exampleRow.highlights)] :=
  (claim6_convert_content exampleRow (by decide) (by decide)).1

/-- C7 (code bug): `search` computes the merged headers into `kwargs` but
invokes `documents.search_post` without `**kwargs`, so the transport call it
issues carries no headers at all — neither the caller-supplied header nor
the client-wide default — whereas `suggest` forwards the merged headers
(call-level keys over client defaults) as the claim requires of every
operation. -/
theorem claim7_search_drops_headers :
    SearchIndexClient.search client0 (.str "hello") (some [("x-custom", "1")]) =
      .ok { request := { search_text := some "hello", filter := none },
            kwargs_headers := none } ∧
    merge_client_headers client0 (some [("x-custom", "1")]) =
      [("api-key", "secret"), ("x-custom", "1")] ∧
    SearchIndexClient.suggest client0
        (.query { request := { search_text := some "hotel", filter := none } })
        (some [("x-custom", "1")]) =
      .ok { suggest_request := { search_text := some "hotel", filter := none },
            kwargs_headers := some [("api-key", "secret"), ("x-custom", "1")] } :=
  ⟨rfl, rfl, rfl⟩

/-- C8: `search`'s argument guard: a plain string is wrapped into a default
query descriptor carrying only the search text, a structured `SearchQuery`
is used as-is, and any other argument (an integer) produces a `TypeError`
before any transport call — an error result carries no transport call in
this embedding, since `search` returns the single call it issues. -/
theorem claim8_search_type_guard (c : SearchIndexClientState)
    (hdrs : Option (List (String × String))) :
    (∀ s : String, SearchIndexClient.search c (.str s) hdrs =
      .ok { request := (SearchQuery.ofSearchText s).request, kwargs_headers := none }) ∧
    (∀ q : SearchQuery, SearchIndexClient.search c (.query q) hdrs =
      .ok { request := q.request, kwargs_headers := none }) ∧
    ∀ n : Int, SearchIndexClient.search c (.int n) hdrs = .error .typeError :=
  ⟨fun _ => rfl, fun _ => rfl, fun _ => rfl⟩

/-- C9 counterexample: on a template that already wraps the placeholder in
explicit quotes, `odata` substitutes the original value with its single
quote left unescaped (`name eq 'O'Neil'`), not the duplicated-quote form the
claim requires (`name eq 'O''Neil'`). -/
theorem claim9_counterexample :
    odata quotedTemplate [("name", .vstr oneilVal)] = .ok quotedActual ∧
    quotedActual ≠ quotedClaimed :=
  ⟨by decide, by decide⟩

/-- C9 amended: for a placeholder not already quoted in the template,
`odata` duplicates every single quote of a textual value and wraps it in
single quotes (shown for every value on the spec's template
`"x eq {v}"`), substitutes non-textual values verbatim and has no side
effects (it is a pure function of its arguments); the docstring example
evaluates as documented; but when the template already wraps the
placeholder in explicit quotes, the original value is substituted verbatim,
its quotes unescaped. -/
theorem claim9_odata_escaping :
    (∀ s : String, odata specTemplate [("v", .vstr s)] =
      .ok (String.mk ("x eq ".toList ++ [squote] ++ duplicateSingleQuotes s.toList ++
        [squote]))) ∧
    odata docTemplate [("name", .vstr oneilVal), ("age", .vint 37)] = .ok docExpected ∧
    odata quotedTemplate [("name", .vstr oneilVal)] = .ok quotedActual := by
  refine ⟨fun s => ?_, by decide, by decide⟩
  rw [odata]
  simp only [List.map]
  rw [show listContains specTemplate.toList
    (squote :: lbrace :: ("v".toList ++ [rbrace, squote])) = false from rfl]
  simp only [Bool.false_eq_true, if_false]
  rw [pyFormat]
  rw [show specTemplate.length + 1 = 9 from rfl]
  rw [show specTemplate.toList = ['x', ' ', 'e', 'q', ' ', lbrace, 'v', rbrace] from rfl]
  rw [pyFormatAux_substOne]
  simp [pyStr, toList_mk, Except.map]

/-- C10: the returned mapping always contains both reserved keys, mapped to
the row's score and highlight values verbatim — hence to the absent-value
`None` when the row carries no score or no highlight map, as at the concrete
highlight-less row. -/
theorem claim10_reserved_keys_present (r : SearchResult) :
    dictGet (convert_search_result r).1 "@search.score" = some r.score ∧
    dictGet (convert_search_result r).1 "@search.highlights" = some r.highlights ∧
    dictGet (convert_search_result noHighlightRow).1 "@search.highlights" =
      some .vnone ∧
    dictGet (convert_search_result noHighlightRow).1 "@search.score" = some .vnone := by
  refine ⟨?_, ?_, by decide, by decide⟩
  · show dictGet (dictSet (dictSet r.additional_properties "@search.score" r.score)
      "@search.highlights" r.highlights) "@search.score" = _
    rw [dictGet_dictSet_other _ _ _ _ (by decide), dictGet_dictSet_self]
  · exact dictGet_dictSet_self _ _ _
